import Mathlib

/-!
Shallow embedding of the GrokTweetBot orchestration script (src/main.py).

The script drives: prompt → Grok query (memoized) → text cleaning →
posting to X and optionally Telegram (each memoized by exact text) →
aggregation of per-paragraph results, under a 1-second polling scheduler.

Modelling conventions:
* Machine-level collaborators (the xAI streaming client, `ast.literal_eval`,
  the tweepy client, the Telegram HTTP endpoint) are oracles supplied as
  function-valued structures; the bot's own control flow around them is
  translated directly from the source.
* Python exceptions are modelled by their description string; a raised
  exception shows up as `Except.error`.
* The in-memory cache `self.cache` is an association list from string key
  to stored value, threaded explicitly.  `_save_cache` persistence is
  modelled by `jsonRoundTrip`, the effect of `json.dumps` followed by
  `json.loads` on the cache, which a process restart applies
  (`_load_cache` in `__init__`).
* `\s`, `\d` and `str.strip` are modelled over their ASCII ranges
  (the inputs of interest are ASCII).
-/

/-- The whitespace characters recognised by `str.strip` and `\s`
(ASCII range). -/
def isSpace (c : Char) : Bool :=
  c = ' ' || c = '\t' || c = '\n' || c = '\r' || c = '\x0b' || c = '\x0c'

/-- The decimal digits matched by `\d` (ASCII range). -/
def isDigitCh (c : Char) : Bool :=
  '0' ≤ c && c ≤ '9'

/-- The sentence punctuation class `[.,;!?]` of `_clean_text`'s second
pattern. -/
def isPunct (c : Char) : Bool :=
  c = '.' || c = ',' || c = ';' || c = '!' || c = '?'

/-- Remove the maximal run of trailing whitespace (the right half of
`str.strip`). -/
def dropTrail : List Char → List Char
  | [] => []
  | c :: t =>
    match dropTrail t with
    | [] => if isSpace c then [] else [c]
    | r => c :: r

/-- `str.strip()`: remove leading and trailing whitespace.  The two
removals commute, so performing the trailing removal first is
equivalent. -/
def stripL (cs : List Char) : List Char :=
  (dropTrail cs).dropWhile isSpace

/-- `re.sub(r"\s*\[\d{1,3}\]$", "", ·)` on the reversed character list:
if the string ends with a bracketed 1-3 digit group, remove it together
with the whitespace run preceding it (the leftmost match of the anchored
pattern takes the maximal `\s*`).  The pattern is applied to an already
stripped string, so `$` is exactly end-of-string. -/
def sub1Rev : List Char → List Char
  | ']' :: rest =>
    let ds := rest.takeWhile isDigitCh
    if 1 ≤ ds.length ∧ ds.length ≤ 3 then
      match rest.dropWhile isDigitCh with
      | '[' :: rest2 => rest2.dropWhile isSpace
      | _ => ']' :: rest
    else ']' :: rest
  | cs => cs

/-- First substitution of `_clean_text`: drop a trailing bracketed 1-3
digit group together with preceding whitespace. -/
def sub1 (cs : List Char) : List Char :=
  (sub1Rev cs.reverse).reverse

/-- Second substitution of `_clean_text`:
`re.sub(r"\s*([.,;!?])", r"\1", ·)` deletes every whitespace run that
is immediately followed by a sentence punctuation character.  A
whitespace character is deleted exactly when the next non-whitespace
character (if any) is punctuation. -/
def sub2 : List Char → List Char
  | [] => []
  | c :: rest =>
    if isSpace c then
      match rest.dropWhile isSpace with
      | p :: _ => if isPunct p then sub2 rest else c :: sub2 rest
      | [] => c :: sub2 rest
    else c :: sub2 rest

/-- `GrokTweetBot._clean_text` on the character list:
`strip`, then the trailing-marker removal, then punctuation-whitespace
collapse, then `strip` again. -/
def cleanL (cs : List Char) : List Char :=
  stripL (sub2 (sub1 (stripL cs)))

/-- `GrokTweetBot._clean_text`. -/
def cleanText (s : String) : String :=
  ⟨cleanL s.data⟩

/-- A key of a Python dict produced by `ast.literal_eval` (the paragraph
dicts use int keys; after a JSON round trip they become strings). -/
inductive PKey where
  | pint (n : Nat)
  | pstr (s : String)
deriving DecidableEq

/-- A value stored in `self.cache`: either a parsed paragraph dict
(under a `grok::` key) or an opaque post-response record (under a
`tweet::` or `telegram::` key). -/
inductive CacheVal where
  | paragraphs (ps : List (PKey × String))
  | postResp (data : String)
deriving DecidableEq

/-- The in-memory cache `self.cache`, an association list with unique
keys (Python dict). -/
abbrev Cache := List (String × CacheVal)

/-- `self.cache.get(key)`. -/
def cacheGet (c : Cache) (k : String) : Option CacheVal :=
  match c with
  | [] => none
  | (k', v) :: rest => if k' = k then some v else cacheGet rest k

/-- `self.cache[key] = v`: replace an existing binding in place or
append a new one. -/
def cacheSet (c : Cache) (k : String) (v : CacheVal) : Cache :=
  match c with
  | [] => [(k, v)]
  | (k', v') :: rest =>
    if k' = k then (k, v) :: rest else (k', v') :: cacheSet rest k v

/-- Cache key of `_query_grok`: `f"grok::{model}::{user_prompt}"`. -/
def grokKey (model prompt : String) : String :=
  "grok::" ++ model ++ "::" ++ prompt

/-- Cache key of `_post_tweet`: `f"tweet::{text}"`. -/
def tweetKey (t : String) : String :=
  "tweet::" ++ t

/-- Cache key of `_post_telegram`: `f"telegram::{text}"`. -/
def telegramKey (t : String) : String :=
  "telegram::" ++ t

/-- JSON round trip on a dict key: `json.dumps` writes every key as a
JSON object key, i.e. a string; `json.loads` reads it back as a string.
An int key therefore comes back as its decimal string. -/
def jsonKey : PKey → PKey
  | .pint n => .pstr (toString n)
  | .pstr s => .pstr s

/-- JSON round trip on a cached value.  Post-response records originate
from JSON (or a JSON-serialisable dict with string keys) and are
modelled as stable; a paragraph dict has its int keys turned into
strings.  (A paragraph dict holding both an int key and its decimal
string, which `json.dumps` would collapse, is not produced by the
modelled flows and is outside the model.) -/
def jsonVal : CacheVal → CacheVal
  | .paragraphs ps => .paragraphs (ps.map fun kv => (jsonKey kv.1, kv.2))
  | .postResp d => .postResp d

/-- The effect of persisting the cache with `_save_cache` and reloading
it with `_load_cache` after a process restart: top-level keys are
already strings; every stored value goes through the JSON round trip. -/
def jsonRoundTrip (c : Cache) : Cache :=
  c.map fun kv => (kv.1, jsonVal kv.2)

/-- Result of `chat.create(...)` plus draining `chat.stream()`: the text
chunks yielded before the stream either finishes (`exc = none`) or
raises (`exc = some e`, in which case the accumulated chunks are
discarded by the `raise`). -/
structure StreamResult where
  chunks : List String
  exc : Option String

/-- Oracle for the external generation machinery of `_query_grok`:
`stream model prompt` is the remote streamed call, `parse` is
`ast.literal_eval` on the concatenated chunk text. -/
structure GrokRemote where
  stream : String → String → StreamResult
  parse : String → Except String (List (PKey × String))

/-- `GrokTweetBot._query_grok`: on a cache hit return the stored value
with no remote call; on a miss, stream and parse, re-raising any
exception unchanged (nothing cached on failure), else cache the parsed
dict and return it.  Result: (returned value or raised exception,
cache afterwards, number of remote calls issued). -/
def queryGrok (r : GrokRemote) (c : Cache) (model prompt : String) :
    Except String CacheVal × Cache × Nat :=
  match cacheGet c (grokKey model prompt) with
  | some v => (.ok v, c, 0)
  | none =>
    let s := r.stream model prompt
    match s.exc with
    | some e => (.error e, c, 1)
    | none =>
      match r.parse (String.join s.chunks) with
      | .error e => (.error e, c, 1)
      | .ok ps =>
        (.ok (.paragraphs ps), cacheSet c (grokKey model prompt) (.paragraphs ps), 1)

/-- Outcome of `self.twitter_client.create_tweet(text=...)`: success
with `response.data`, a raised `tweepy.TweepyException`, or a raised
exception of any other class (e.g. a transport-level error), which the
`except tweepy.TweepyException` clause does not catch. -/
inductive TweetOutcome where
  | ok (data : String)
  | tweepyErr (e : String)
  | otherErr (e : String)
deriving DecidableEq

/-- Oracle for the X (Twitter) client. -/
structure TweetRemote where
  create : String → TweetOutcome

/-- `GrokTweetBot._post_tweet`: cache hit returns the stored value with
no remote call; on success the response is cached then returned; a
`TweepyException` is logged and `None` is returned; any other exception
propagates.  Result: (returned value or raised exception, cache
afterwards, number of remote post attempts). -/
def postTweet (tw : TweetRemote) (c : Cache) (t : String) :
    Except String (Option CacheVal) × Cache × Nat :=
  match cacheGet c (tweetKey t) with
  | some v => (.ok (some v), c, 0)
  | none =>
    match tw.create t with
    | .ok d => (.ok (some (.postResp d)), cacheSet c (tweetKey t) (.postResp d), 1)
    | .tweepyErr _ => (.ok none, c, 1)
    | .otherErr e => (.error e, c, 1)

/-- Outcome of the Telegram `requests.post` + `raise_for_status` +
`.json()` sequence: a parsed JSON body, or an exception anywhere in the
sequence (all caught by the bare `except Exception`). -/
inductive TgOutcome where
  | ok (data : String)
  | err (e : String)
deriving DecidableEq

/-- Oracle for the Telegram endpoint. -/
structure TgRemote where
  send : String → TgOutcome

/-- `GrokTweetBot._post_telegram`: if Telegram is not configured
(`self.telegram_api_url is None`) return `None` immediately; otherwise
cache hit returns the stored value; on success the body is cached then
returned; every exception is logged and `None` returned (never
raised).  Result: (returned value, cache afterwards, number of remote
post attempts). -/
def postTelegram (configured : Bool) (tg : TgRemote) (c : Cache) (t : String) :
    Option CacheVal × Cache × Nat :=
  if configured then
    match cacheGet c (telegramKey t) with
    | some v => (some v, c, 0)
    | none =>
      match tg.send t with
      | .ok d => (some (.postResp d), cacheSet c (telegramKey t) (.postResp d), 1)
      | .err _ => (none, c, 1)
  else (none, c, 0)

/-- Per-paragraph result record `{"tweet": ..., "telegram": ...}`. -/
structure ParaRes where
  tweet : Option CacheVal
  telegram : Option CacheVal
deriving DecidableEq

/-- The `for idx, para in paragraphs.items()` loop of
`process_and_broadcast`: for each paragraph in dict (insertion) order,
clean the text, post to X, post to Telegram, and record both results
under the paragraph's key.  An uncaught exception from `_post_tweet`
aborts the loop (the partial results dict is a lost local); cache
updates made so far persist. -/
def broadcastLoop (tw : TweetRemote) (cfg : Bool) (tg : TgRemote) :
    Cache → List (PKey × String) → Except String (List (PKey × ParaRes)) × Cache
  | c, [] => (.ok [], c)
  | c, (k, para) :: rest =>
    match postTweet tw c (cleanText para) with
    | (.error e, c1, _) => (.error e, c1)
    | (.ok tr, c1, _) =>
      let tgr := postTelegram cfg tg c1 (cleanText para)
      match broadcastLoop tw cfg tg tgr.2.1 rest with
      | (.error e, c3) => (.error e, c3)
      | (.ok res, c3) => (.ok ((k, ⟨tr, tgr.1⟩) :: res), c3)

/-- `GrokTweetBot.process_and_broadcast`: query Grok (model `"grok-4"`),
then run the publish loop over the returned paragraphs.  A generation
failure propagates.  A cached value that is not a paragraph dict would
fail at `.items()` iteration; this branch is unreachable through the
namespaced keys and is modelled as a raised `TypeError`. -/
def processAndBroadcast (r : GrokRemote) (tw : TweetRemote) (cfg : Bool)
    (tg : TgRemote) (c : Cache) (prompt : String) :
    Except String (List (PKey × ParaRes)) × Cache :=
  match queryGrok r c "grok-4" prompt with
  | (.error e, c1, _) => (.error e, c1)
  | (.ok (.paragraphs ps), c1, _) => broadcastLoop tw cfg tg c1 ps
  | (.ok (.postResp _), c1, _) => (.error "TypeError", c1)

/-- Outcome of one `schedule.run_pending(); time.sleep(1)` tick of
`main`'s polling loop: either it completes, or a dispatched job's
exception propagates out of `run_pending` (the `schedule` library does
not catch job exceptions). -/
inductive TickOut where
  | done
  | raises (e : String)
deriving DecidableEq

/-- How `main`'s loop ends relative to a finite trace of tick
outcomes. -/
inductive LoopEnd where
  | running
  | stopped
  | crashed (e : String)
deriving DecidableEq

/-- `main`'s `try: while True: ... except KeyboardInterrupt` loop over a
finite trace of tick outcomes: a `KeyboardInterrupt` is caught and
stops the loop cleanly; any other exception escapes the `try` and
crashes the process.  Returns how the loop ended and how many ticks
were executed. -/
def runLoop : List TickOut → LoopEnd × Nat
  | [] => (.running, 0)
  | .done :: rest =>
    let r := runLoop rest
    (r.1, r.2 + 1)
  | .raises e :: _ =>
    if e = "KeyboardInterrupt" then (.stopped, 1) else (.crashed e, 1)

/-- Invariant characterising the output of `sub2`: no whitespace
character is immediately followed by a sentence punctuation character
(equivalently, no whitespace run precedes punctuation). -/
def noWsPunct : List Char → Bool
  | c :: d :: rest => !(isSpace c && isPunct d) && noWsPunct (d :: rest)
  | _ => true

/-- A Twitter client whose posts always succeed (for witnesses). -/
def twOk : TweetRemote := ⟨fun _ => .ok "tid"⟩

/-- A Twitter client that always raises a `TweepyException`. -/
def twFailTweepy : TweetRemote := ⟨fun _ => .tweepyErr "403 Forbidden"⟩

/-- A Twitter client that always raises a transport-level exception that
is not a `TweepyException`. -/
def twFailOther : TweetRemote := ⟨fun _ => .otherErr "ConnectionError"⟩

/-- A Twitter client for the mixed-outcome broadcast scenario: posting
the cleaned paragraph `"two"` raises a `TweepyException`, other posts
succeed. -/
def twMixed : TweetRemote :=
  ⟨fun t => if t = "two" then .tweepyErr "duplicate content"
            else if t = "one" then .ok "id1" else .ok "id3"⟩

/-- A Telegram endpoint whose posts always succeed (for witnesses). -/
def tgOk : TgRemote := ⟨fun _ => .ok "mid"⟩

/-- A Telegram endpoint that always fails (for witnesses). -/
def tgFail : TgRemote := ⟨fun _ => .err "HTTPError"⟩

/-- A generation oracle whose stream succeeds and parses to the
one-paragraph dict with int key 1 (for the restart counterexample). -/
def grokParses : GrokRemote :=
  ⟨fun _ _ => ⟨["resp"], none⟩, fun _ => .ok [(.pint 1, "a")]⟩

/-- A generation oracle whose stream yields one chunk of raw response
text and then raises a connection error. -/
def grokStreamFails : GrokRemote :=
  ⟨fun _ _ => ⟨["partial-resp"], some "ConnectionResetError"⟩, fun _ => .error "unused"⟩

deriving instance DecidableEq for Except

/-- Dropping while a predicate holds is idempotent. -/
theorem dropWhile_dropWhile {α : Type} (p : α → Bool) (l : List α) :
    (l.dropWhile p).dropWhile p = l.dropWhile p := by
  induction l with
  | nil => rfl
  | cons c t ih =>
    cases h : p c <;> simp [List.dropWhile_cons, h, ih]

/-- `dropWhile` distributes over an append whose junction element does
not satisfy the predicate. -/
theorem dropWhile_append_not_head {α : Type} (p : α → Bool) (x : List α) (c : α)
    (t : List α) (hc : p c = false) :
    (x ++ c :: t).dropWhile p = x.dropWhile p ++ c :: t := by
  induction x with
  | nil => simp [List.dropWhile_cons, hc]
  | cons a x ih =>
    cases h : p a <;> simp [List.dropWhile_cons, h, ih]

/-- `takeWhile` over a block of satisfying elements followed by a
non-satisfying element returns exactly the block. -/
theorem takeWhile_all_stop {α : Type} (p : α → Bool) (x : List α) (c : α)
    (t : List α) (hx : x.all p = true) (hc : p c = false) :
    (x ++ c :: t).takeWhile p = x := by
  induction x with
  | nil => simp [List.takeWhile_cons, hc]
  | cons a x ih =>
    simp only [List.all_cons, Bool.and_eq_true] at hx
    simp [List.takeWhile_cons, hx.1, ih hx.2]

/-- `dropWhile` over a block of satisfying elements followed by a
non-satisfying element drops exactly the block. -/
theorem dropWhile_all_stop {α : Type} (p : α → Bool) (x : List α) (c : α)
    (t : List α) (hx : x.all p = true) (hc : p c = false) :
    (x ++ c :: t).dropWhile p = c :: t := by
  induction x with
  | nil => simp [List.dropWhile_cons, hc]
  | cons a x ih =>
    simp only [List.all_cons, Bool.and_eq_true] at hx
    simp [List.dropWhile_cons, hx.1, ih hx.2]

/-- `dropTrail` keeps a list whose last element is not whitespace. -/
theorem dropTrail_concat_not (xs : List Char) (c : Char) (hc : isSpace c = false) :
    dropTrail (xs ++ [c]) = xs ++ [c] := by
  induction xs with
  | nil => simp [dropTrail, hc]
  | cons a xs ih =>
    cases hxs : xs ++ [c] with
    | nil => simp at hxs
    | cons b l => rw [List.cons_append, dropTrail, ih]; simp [hxs]

/-- `dropTrail` absorbs a trailing whitespace character. -/
theorem dropTrail_concat_ws (xs : List Char) (c : Char) (hc : isSpace c = true) :
    dropTrail (xs ++ [c]) = dropTrail xs := by
  induction xs with
  | nil => simp [dropTrail, hc]
  | cons a xs ih => rw [List.cons_append, dropTrail, ih, dropTrail]

/-- `dropTrail` is reverse `dropWhile` of whitespace. -/
theorem dropTrail_eq_reverse (l : List Char) :
    (l.reverse.dropWhile isSpace).reverse = dropTrail l := by
  induction l using List.reverseRecOn with
  | nil => rfl
  | append_singleton xs c ih =>
    cases hc : isSpace c with
    | false =>
      rw [dropTrail_concat_not xs c hc]
      simp [List.dropWhile_cons, hc]
    | true =>
      rw [dropTrail_concat_ws xs c hc, ← ih]
      simp [List.dropWhile_cons, hc]

/-- `dropTrail` absorbs any all-whitespace suffix. -/
theorem dropTrail_append_ws (x w : List Char) (hw : w.all isSpace = true) :
    dropTrail (x ++ w) = dropTrail x := by
  induction w using List.reverseRecOn generalizing x with
  | nil => simp
  | append_singleton w' c ih =>
    simp only [List.all_append, List.all_cons, List.all_nil, Bool.and_eq_true] at hw
    rw [← List.append_assoc, dropTrail_concat_ws _ c hw.2.1, ih _ hw.1]

/-- `dropTrail` is idempotent. -/
theorem dropTrail_dropTrail (l : List Char) :
    dropTrail (dropTrail l) = dropTrail l := by
  induction l with
  | nil => rfl
  | cons c t ih =>
    cases h : dropTrail t with
    | nil =>
      cases hc : isSpace c <;> simp [dropTrail, h, hc]
    | cons b r =>
      rw [dropTrail, h]
      rw [h] at ih
      rw [dropTrail, ih]

/-- Leading and trailing whitespace removal commute. -/
theorem dropTrail_dropWhile_comm (l : List Char) :
    dropTrail (l.dropWhile isSpace) = (dropTrail l).dropWhile isSpace := by
  induction l with
  | nil => rfl
  | cons c t ih =>
    cases hc : isSpace c with
    | true =>
      rw [List.dropWhile_cons_of_pos hc, ih]
      cases h : dropTrail t with
      | nil => simp [dropTrail, h, hc]
      | cons b r => simp [dropTrail, h, List.dropWhile_cons_of_pos hc]
    | false =>
      rw [List.dropWhile_cons_of_neg (by simp [hc])]
      cases h : dropTrail t with
      | nil => simp [dropTrail, h, hc]
      | cons b r =>
        have hd : dropTrail (c :: t) = c :: b :: r := by rw [dropTrail, h]
        rw [hd, List.dropWhile_cons_of_neg (by simp [hc])]

/-- `str.strip` is idempotent. -/
theorem stripL_stripL (l : List Char) : stripL (stripL l) = stripL l := by
  unfold stripL
  rw [dropTrail_dropWhile_comm, dropTrail_dropTrail, dropWhile_dropWhile]

/-- Every list is `dropTrail` of itself followed by an all-whitespace
remainder. -/
theorem exists_dropTrail_append (l : List Char) :
    ∃ w, l = dropTrail l ++ w ∧ w.all isSpace = true := by
  refine ⟨(l.reverse.takeWhile isSpace).reverse, ?_, ?_⟩
  · conv_lhs => rw [← l.reverse_reverse, ← List.takeWhile_append_dropWhile (p := isSpace) (l := l.reverse)]
    rw [List.reverse_append, dropTrail_eq_reverse]
  · simp only [List.all_eq_true, List.mem_reverse]
    intro c hc
    exact List.mem_takeWhile_imp hc

/-- Whitespace characters are not punctuation characters. -/
theorem space_not_punct (c : Char) (h : isSpace c = true) : isPunct c = false := by
  simp only [isSpace, Bool.or_eq_true, decide_eq_true_eq] at h
  have hc : c = ' ' ∨ c = '\t' ∨ c = '\n' ∨ c = '\r' ∨ c = '\x0b' ∨ c = '\x0c' := by
    tauto
  rcases hc with h' | h' | h' | h' | h' | h' <;> subst h' <;> decide

/-- `noWsPunct` restricted to the tail. -/
theorem noWsPunct_tail (c : Char) (l : List Char) (h : noWsPunct (c :: l) = true) :
    noWsPunct l = true := by
  cases l with
  | nil => rfl
  | cons d t =>
    simp only [noWsPunct, Bool.and_eq_true] at h
    exact h.2

/-- Extending a `noWsPunct` list by a head whose pair with the old head
is allowed. -/
theorem noWsPunct_cons (c : Char) (l : List Char)
    (hh : ∀ d, l.head? = some d → (isSpace c && isPunct d) = false)
    (hl : noWsPunct l = true) : noWsPunct (c :: l) = true := by
  cases l with
  | nil => rfl
  | cons d t =>
    have h2 := hh d rfl
    show (!(isSpace c && isPunct d) && noWsPunct (d :: t)) = true
    rw [h2, hl]
    rfl

/-- `noWsPunct` holds on a left factor of an append. -/
theorem noWsPunct_append_left (l m : List Char) (h : noWsPunct (l ++ m) = true) :
    noWsPunct l = true := by
  induction l with
  | nil => rfl
  | cons c t ih =>
    cases t with
    | nil => rfl
    | cons d t' =>
      simp only [List.cons_append, noWsPunct, Bool.and_eq_true] at h ⊢
      exact ⟨h.1, by simpa using ih (by simpa using h.2)⟩

/-- `noWsPunct` holds on a right factor of an append. -/
theorem noWsPunct_append_right (l m : List Char) (h : noWsPunct (l ++ m) = true) :
    noWsPunct m = true := by
  induction l with
  | nil => simpa using h
  | cons c t ih =>
    exact ih (noWsPunct_tail c (t ++ m) (by simpa using h))

/-- In a `noWsPunct` list headed by whitespace, the first
non-whitespace character (if any) is not punctuation. -/
theorem noWsPunct_head_after_ws (l : List Char) (c : Char) (hc : isSpace c = true)
    (h : noWsPunct (c :: l) = true) :
    ∀ p, (l.dropWhile isSpace).head? = some p → isPunct p = false := by
  induction l generalizing c with
  | nil => intro p hp; simp at hp
  | cons d t ih =>
    intro p hp
    simp only [noWsPunct, Bool.and_eq_true] at h
    have hd : isPunct d = false := by
      rcases h with ⟨h1, _⟩
      cases hpd : isPunct d
      · rfl
      · rw [hc, hpd] at h1; simp at h1
    cases hds : isSpace d with
    | true =>
      rw [List.dropWhile_cons_of_pos hds] at hp
      exact ih d hds h.2 p hp
    | false =>
      rw [List.dropWhile_cons_of_neg (by simp [hds])] at hp
      simp only [List.head?_cons, Option.some_inj] at hp
      subst hp
      exact hd

/-- A list with no whitespace-before-punctuation is a fixed point of
`sub2`. -/
theorem sub2_eq_self (l : List Char) (h : noWsPunct l = true) : sub2 l = l := by
  induction l with
  | nil => rfl
  | cons c t ih =>
    have ht := ih (noWsPunct_tail c t h)
    cases hc : isSpace c with
    | false => simp [sub2, hc, ht]
    | true =>
      cases hdw : t.dropWhile isSpace with
      | nil => simp [sub2, hc, hdw, ht]
      | cons p rest =>
        have hp : isPunct p = false :=
          noWsPunct_head_after_ws t c hc h p (by rw [hdw]; rfl)
        simp [sub2, hc, hdw, hp, ht]

/-- If `sub2`'s output starts with a punctuation character, that
character already heads the input's whitespace-stripped form. -/
theorem sub2_head_punct (l : List Char) (p : Char) (hp : isPunct p = true)
    (h : (sub2 l).head? = some p) : (l.dropWhile isSpace).head? = some p := by
  induction l with
  | nil => simp [sub2] at h
  | cons c t ih =>
    cases hc : isSpace c with
    | false =>
      simp only [sub2, hc, Bool.false_eq_true, if_neg, ite_false, List.head?_cons,
        Option.some_inj] at h
      rw [List.dropWhile_cons_of_neg (by simp [hc])]
      simpa using h
    | true =>
      cases hdw : t.dropWhile isSpace with
      | nil =>
        simp only [sub2, hc, if_true, hdw, List.head?_cons, Option.some_inj] at h
        subst h
        rw [space_not_punct c hc] at hp
        cases hp
      | cons q rest =>
        cases hq : isPunct q with
        | true =>
          simp only [sub2, hc, if_true, hdw, hq] at h
          rw [List.dropWhile_cons_of_pos hc, hdw]
          rw [hdw] at ih
          exact ih h
        | false =>
          simp only [sub2, hc, if_true, hdw, hq, Bool.false_eq_true, if_neg,
            ite_false, List.head?_cons, Option.some_inj] at h
          subst h
          rw [space_not_punct c hc] at hp
          cases hp

/-- The output of `sub2` has no whitespace run before punctuation. -/
theorem noWsPunct_sub2 (l : List Char) : noWsPunct (sub2 l) = true := by
  induction l with
  | nil => rfl
  | cons c t ih =>
    cases hc : isSpace c with
    | false =>
      have : sub2 (c :: t) = c :: sub2 t := by simp [sub2, hc]
      rw [this]
      refine noWsPunct_cons c (sub2 t) (fun d _ => ?_) ih
      rw [hc]
      rfl
    | true =>
      cases hdw : t.dropWhile isSpace with
      | nil =>
        have hs : sub2 (c :: t) = c :: sub2 t := by simp [sub2, hc, hdw]
        rw [hs]
        refine noWsPunct_cons c (sub2 t) (fun d hd => ?_) ih
        cases hpd : isPunct d with
        | false => simp [hpd]
        | true =>
          have := sub2_head_punct t d hpd hd
          rw [hdw] at this
          cases this
      | cons q rest =>
        cases hq : isPunct q with
        | true =>
          have hs : sub2 (c :: t) = sub2 t := by simp [sub2, hc, hdw, hq]
          rw [hs]; exact ih
        | false =>
          have hs : sub2 (c :: t) = c :: sub2 t := by simp [sub2, hc, hdw, hq]
          rw [hs]
          refine noWsPunct_cons c (sub2 t) (fun d hd => ?_) ih
          cases hpd : isPunct d with
          | false => simp [hpd]
          | true =>
            have := sub2_head_punct t d hpd hd
            rw [hdw] at this
            simp only [List.head?_cons, Option.some_inj] at this
            subst this
            rw [hpd] at hq
            cases hq

/-- `sub2` deletes only whitespace characters. -/
theorem filter_sub2 (l : List Char) :
    (sub2 l).filter (fun c => !isSpace c) = l.filter (fun c => !isSpace c) := by
  induction l with
  | nil => rfl
  | cons c t ih =>
    cases hc : isSpace c with
    | false => simp [sub2, hc, List.filter_cons, ih]
    | true =>
      cases hdw : t.dropWhile isSpace with
      | nil => simp [sub2, hc, hdw, List.filter_cons, ih]
      | cons q rest =>
        cases hq : isPunct q <;> simp [sub2, hc, hdw, hq, List.filter_cons, ih]

/-- Leading whitespace removal deletes only whitespace characters. -/
theorem filter_dropWhile_ws (l : List Char) :
    (l.dropWhile isSpace).filter (fun c => !isSpace c) = l.filter (fun c => !isSpace c) := by
  induction l with
  | nil => rfl
  | cons c t ih =>
    cases hc : isSpace c with
    | false => simp [List.dropWhile_cons, hc]
    | true => simp [List.dropWhile_cons, hc, List.filter_cons, ih]

/-- An all-whitespace list has no non-whitespace characters. -/
theorem filter_all_ws (w : List Char) (hw : w.all isSpace = true) :
    w.filter (fun c => !isSpace c) = [] := by
  induction w with
  | nil => rfl
  | cons c t ih =>
    simp only [List.all_cons, Bool.and_eq_true] at hw
    simp [List.filter_cons, hw.1, ih hw.2]

/-- Trailing whitespace removal deletes only whitespace characters. -/
theorem filter_dropTrail (l : List Char) :
    (dropTrail l).filter (fun c => !isSpace c) = l.filter (fun c => !isSpace c) := by
  obtain ⟨w, hw, hall⟩ := exists_dropTrail_append l
  conv_rhs => rw [hw]
  rw [List.filter_append, filter_all_ws w hall, List.append_nil]

/-- `str.strip` deletes only whitespace characters. -/
theorem filter_stripL (l : List Char) :
    (stripL l).filter (fun c => !isSpace c) = l.filter (fun c => !isSpace c) := by
  unfold stripL
  rw [filter_dropWhile_ws, filter_dropTrail]

/-- Reading a key just written. -/
theorem cacheGet_set_self (c : Cache) (k : String) (v : CacheVal) :
    cacheGet (cacheSet c k v) k = some v := by
  induction c with
  | nil => simp [cacheGet, cacheSet]
  | cons kv rest ih =>
    obtain ⟨k', v'⟩ := kv
    by_cases h : k' = k <;> simp [cacheGet, cacheSet, h, ih]

/-- Writing one key does not change reads of another. -/
theorem cacheGet_set_ne (c : Cache) (k k' : String) (v : CacheVal) (h : k' ≠ k) :
    cacheGet (cacheSet c k v) k' = cacheGet c k' := by
  have hne : k ≠ k' := fun hc => h hc.symm
  induction c with
  | nil => simp [cacheGet, cacheSet, hne]
  | cons kv rest ih =>
    obtain ⟨k0, v0⟩ := kv
    by_cases h0 : k0 = k
    · subst h0
      simp [cacheGet, cacheSet, hne]
    · simp [cacheGet, cacheSet, h0, ih]

/-- Reads of the persisted-and-reloaded cache are reads of the original
with the JSON round trip applied to the value. -/
theorem cacheGet_jsonRoundTrip (c : Cache) (k : String) :
    cacheGet (jsonRoundTrip c) k = (cacheGet c k).map jsonVal := by
  induction c with
  | nil => rfl
  | cons kv rest ih =>
    obtain ⟨k0, v0⟩ := kv
    have e1 : jsonRoundTrip ((k0, v0) :: rest) = (k0, jsonVal v0) :: jsonRoundTrip rest := rfl
    rw [e1]
    by_cases h : k0 = k
    · simp [cacheGet, h]
    · simp [cacheGet, h, ih]

/-- String concatenation is left-cancellative. -/
theorem string_append_left_cancel (p a b : String) (h : p ++ a = p ++ b) : a = b := by
  have hd : (p ++ a).data = (p ++ b).data := by rw [h]
  simp only [String.data_append] at hd
  have hab := List.append_cancel_left hd
  cases a; cases b
  exact congrArg String.mk hab

/-- `str.strip` preserves the no-whitespace-before-punctuation
invariant (it removes characters only at the two ends). -/
theorem noWsPunct_stripL (l : List Char) (h : noWsPunct l = true) :
    noWsPunct (stripL l) = true := by
  obtain ⟨w, hw, _⟩ := exists_dropTrail_append l
  have hdt : noWsPunct (dropTrail l) = true := by
    rw [hw] at h
    exact noWsPunct_append_left _ _ h
  have hsplit := List.takeWhile_append_dropWhile (p := isSpace) (l := dropTrail l)
  rw [← hsplit] at hdt
  exact noWsPunct_append_right _ _ hdt

/-- The trailing-marker substitution on a string that ends with a
bracketed 1-3 digit group removes exactly that group (the prefix `A` is
arbitrary and keeps its trailing whitespace dropped by `\s*`). -/
theorem sub1_marker (A dd : List Char) (hd : dd.all isDigitCh = true)
    (h1 : 1 ≤ dd.length) (h3 : dd.length ≤ 3) :
    sub1 (A ++ '[' :: (dd ++ [']'])) = dropTrail A := by
  have hrev : (A ++ '[' :: (dd ++ [']'])).reverse
      = ']' :: (dd.reverse ++ '[' :: A.reverse) := by
    simp [List.reverse_append]
  have hall : dd.reverse.all isDigitCh = true := by
    simp only [List.all_eq_true, List.mem_reverse] at hd ⊢
    exact hd
  have hbr : isDigitCh '[' = false := by decide
  have ht := takeWhile_all_stop isDigitCh dd.reverse '[' A.reverse hall hbr
  have hdw := dropWhile_all_stop isDigitCh dd.reverse '[' A.reverse hall hbr
  unfold sub1
  rw [hrev]
  simp only [sub1Rev, ht, hdw, List.length_reverse]
  rw [if_pos ⟨h1, h3⟩]
  exact dropTrail_eq_reverse A

/-- `_clean_text` on a text that ends with a bracketed 1-3 digit group
preceded by whitespace: the marker is removed and the rest of the
cleaning (strip and punctuation-whitespace collapse) applies to the
prefix alone. -/
theorem cleanL_marker (aL w dd : List Char) (hw : w.all isSpace = true)
    (hd : dd.all isDigitCh = true) (h1 : 1 ≤ dd.length) (h3 : dd.length ≤ 3) :
    cleanL (aL ++ w ++ '[' :: (dd ++ [']'])) = stripL (sub2 (stripL aL)) := by
  have hT : aL ++ w ++ '[' :: (dd ++ [']']) = ((aL ++ w) ++ ('[' :: dd)) ++ [']'] := by
    simp [List.append_assoc]
  have hdt : dropTrail (aL ++ w ++ '[' :: (dd ++ [']']))
      = (aL ++ w) ++ '[' :: (dd ++ [']']) := by
    rw [hT, dropTrail_concat_not _ _ (by decide)]
  have hstripT : stripL (aL ++ w ++ '[' :: (dd ++ [']']))
      = ((aL ++ w).dropWhile isSpace) ++ '[' :: (dd ++ [']']) := by
    unfold stripL
    rw [hdt, dropWhile_append_not_head _ _ _ _ (by decide)]
  have hs1 : sub1 (stripL (aL ++ w ++ '[' :: (dd ++ [']']))) = stripL aL := by
    rw [hstripT, sub1_marker _ dd hd h1 h3, dropTrail_dropWhile_comm,
      dropTrail_append_ws _ _ hw]
    rfl
  unfold cleanL
  rw [hs1]

/-- C3 (counterexample): `_clean_text` is not idempotent.  On
`"a [12][13]"` the anchored trailing-marker pattern removes only the
final `[13]`, leaving `"a [12]"`, and a second application removes
`[12]` as well, giving `"a"`. -/
theorem c3_counterexample :
    cleanText (cleanText "a [12][13]") ≠ cleanText "a [12][13]" := by
  decide

/-- C3 (amended): `_clean_text` is idempotent on every input whose
cleaned form is not itself terminated by a bracketed 1-3 digit marker,
i.e. whenever the trailing-marker substitution is a no-op on the
cleaned result (in particular on any text carrying at most one trailing
marker). -/
theorem c3_amended (s : String)
    (h : sub1 (cleanText s).data = (cleanText s).data) :
    cleanText (cleanText s) = cleanText s := by
  have h' : sub1 (cleanL s.data) = cleanL s.data := h
  have hnw : noWsPunct (cleanL s.data) = true :=
    noWsPunct_stripL _ (noWsPunct_sub2 _)
  have hstrip : stripL (cleanL s.data) = cleanL s.data := stripL_stripL _
  have hsub2 : sub2 (cleanL s.data) = cleanL s.data := sub2_eq_self _ hnw
  have hLL : cleanL (cleanL s.data) = cleanL s.data := by
    show stripL (sub2 (sub1 (stripL (cleanL s.data)))) = cleanL s.data
    rw [hstrip, h', hsub2, hstrip]
  have he : cleanText (cleanText s) = ⟨cleanL (cleanL s.data)⟩ := rfl
  rw [he, hLL]
  rfl

/-- C3 (witness): a concrete instance of the amended idempotence, on a
text with a single trailing character-count marker. -/
theorem c3_witness : cleanText (cleanText "hi [42]") = cleanText "hi [42]" :=
  c3_amended "hi [42]" (by decide)

/-- C4: for every text of the form `a ++ w ++ "[" ++ d ++ "]"` with `w`
whitespace and `d` a 1-3 digit count (the character-count markers the
bot's meta-prompt requests are at most 3 digits, counts being ≤ 280),
`_clean_text` removes exactly that trailing marker: the result is the
prefix `a` with only strip and punctuation-whitespace collapse applied
— no other bracketed group is touched — and every non-whitespace
character of `a`, in particular every interior bracketed numeral, is
preserved verbatim and in order. -/
theorem c4_clean_trailing_marker (a w d : String)
    (hw : w.data.all isSpace = true) (hd : d.data.all isDigitCh = true)
    (h1 : 1 ≤ d.data.length) (h3 : d.data.length ≤ 3) :
    cleanText (a ++ w ++ "[" ++ d ++ "]") = ⟨stripL (sub2 (stripL a.data))⟩ ∧
    (cleanText (a ++ w ++ "[" ++ d ++ "]")).data.filter (fun c => !isSpace c) =
      a.data.filter (fun c => !isSpace c) := by
  have hTdata : (a ++ w ++ "[" ++ d ++ "]").data
      = a.data ++ w.data ++ '[' :: (d.data ++ [']']) := by
    simp [String.data_append]
  have hmain : cleanL (a ++ w ++ "[" ++ d ++ "]").data
      = stripL (sub2 (stripL a.data)) := by
    rw [hTdata]
    exact cleanL_marker a.data w.data d.data hw hd h1 h3
  constructor
  · show (⟨cleanL (a ++ w ++ "[" ++ d ++ "]").data⟩ : String)
      = ⟨stripL (sub2 (stripL a.data))⟩
    rw [hmain]
  · show (cleanL (a ++ w ++ "[" ++ d ++ "]").data).filter (fun c => !isSpace c)
      = a.data.filter (fun c => !isSpace c)
    rw [hmain, filter_stripL, filter_sub2, filter_stripL]

/-- C4 (witness): the marker `" [123]"` is removed from a text that
also contains an interior bracketed numeral, which survives. -/
theorem c4_witness :
    cleanText ("Keep [5] here ." ++ " " ++ "[" ++ "123" ++ "]")
      = ⟨stripL (sub2 (stripL ("Keep [5] here .").data))⟩ ∧
    (cleanText ("Keep [5] here ." ++ " " ++ "[" ++ "123" ++ "]")).data.filter
        (fun c => !isSpace c)
      = ("Keep [5] here .").data.filter (fun c => !isSpace c) :=
  c4_clean_trailing_marker "Keep [5] here ." " " "123"
    (by decide) (by decide) (by decide) (by decide)

/-- Keys of the `tweet::` namespace are injective in the text. -/
theorem tweetKey_ne (a b : String) (h : a ≠ b) : tweetKey a ≠ tweetKey b :=
  fun hc => h (string_append_left_cancel "tweet::" a b hc)

/-- C1 (amended): on a generation cache hit, `_query_grok` returns the
stored value with no remote call and leaves the cache unchanged; within
one process run the returned value is exactly the stored ParagraphSet.
Across a process restart the hit still suppresses the remote call, but
the value returned is the JSON-persisted image of the stored one: the
paragraph dict's integer keys have been serialised to strings by
`json.dumps`/`json.loads`. -/
theorem c1_amended :
    (∀ (r : GrokRemote) (c : Cache) (m p : String) (v : CacheVal),
        cacheGet c (grokKey m p) = some v →
        queryGrok r c m p = (.ok v, c, 0)) ∧
    (∀ (r : GrokRemote) (c : Cache) (m p : String) (v : CacheVal),
        cacheGet c (grokKey m p) = some v →
        queryGrok r (jsonRoundTrip c) m p = (.ok (jsonVal v), jsonRoundTrip c, 0)) := by
  constructor
  · intro r c m p v h
    simp [queryGrok, h]
  · intro r c m p v h
    have h2 : cacheGet (jsonRoundTrip c) (grokKey m p) = some (jsonVal v) := by
      rw [cacheGet_jsonRoundTrip, h]
      rfl
    simp [queryGrok, h2]

/-- C1 (witness): a concrete in-process cache hit returns the stored
paragraph dict unchanged with zero remote calls. -/
theorem c1_witness :
    queryGrok grokParses
        [(grokKey "grok-4" "p", .paragraphs [(.pint 1, "a")])] "grok-4" "p"
      = (.ok (.paragraphs [(.pint 1, "a")]),
         [(grokKey "grok-4" "p", .paragraphs [(.pint 1, "a")])], 0) :=
  c1_amended.1 grokParses _ "grok-4" "p" _ (by decide)

/-- C1 (counterexample): generate once on an empty cache (storing the
int-keyed dict), persist and reload the cache (process restart), then
generate again: the second call is still a cache hit with no remote
call, but the value it returns is the string-keyed dict, not the
ParagraphSet that was previously stored — refuting "the returned value
equals the previously stored ParagraphSet exactly, including across
process restarts". -/
theorem c1_counterexample :
    (queryGrok grokParses
        (jsonRoundTrip (queryGrok grokParses [] "grok-4" "p").2.1) "grok-4" "p").2.2 = 0 ∧
    (queryGrok grokParses
        (jsonRoundTrip (queryGrok grokParses [] "grok-4" "p").2.1) "grok-4" "p").1
      ≠ (queryGrok grokParses [] "grok-4" "p").1 := by
  constructor <;> decide

/-- C2: a publish of text already successfully published and cached
(same channel namespace) returns the first call's stored result and
issues no new remote post — for the X channel and the Telegram channel
alike, whatever prompt or paragraph produced the text (the cache key
depends on the exact text only). -/
theorem c2_publish_dedup (tw tw2 : TweetRemote) (cfg : Bool) (tg tg2 : TgRemote)
    (c : Cache) (t : String) (v w : CacheVal) :
    ((postTweet tw c t).1 = .ok (some v) →
      postTweet tw2 (postTweet tw c t).2.1 t
        = (.ok (some v), (postTweet tw c t).2.1, 0)) ∧
    ((postTelegram cfg tg c t).1 = some w →
      postTelegram cfg tg2 (postTelegram cfg tg c t).2.1 t
        = (some w, (postTelegram cfg tg c t).2.1, 0)) := by
  constructor
  · intro h
    cases hc : cacheGet c (tweetKey t) with
    | some u =>
      have e1 : postTweet tw c t = (.ok (some u), c, 0) := by simp [postTweet, hc]
      rw [e1] at h ⊢
      simp only [Except.ok.injEq, Option.some.injEq] at h
      subst h
      simp [postTweet, hc]
    | none =>
      cases ho : tw.create t with
      | ok d =>
        have e1 : postTweet tw c t
            = (.ok (some (.postResp d)), cacheSet c (tweetKey t) (.postResp d), 1) := by
          simp [postTweet, hc, ho]
        rw [e1] at h ⊢
        simp only [Except.ok.injEq, Option.some.injEq] at h
        subst h
        simp [postTweet, cacheGet_set_self]
      | tweepyErr e =>
        have e1 : postTweet tw c t = (.ok none, c, 1) := by simp [postTweet, hc, ho]
        rw [e1] at h
        simp at h
      | otherErr e =>
        have e1 : postTweet tw c t = (.error e, c, 1) := by simp [postTweet, hc, ho]
        rw [e1] at h
        simp at h
  · intro h
    cases cfg with
    | false =>
      simp [postTelegram] at h
    | true =>
      cases hc : cacheGet c (telegramKey t) with
      | some u =>
        have e1 : postTelegram true tg c t = (some u, c, 0) := by simp [postTelegram, hc]
        rw [e1] at h ⊢
        simp only [Option.some.injEq] at h
        subst h
        simp [postTelegram, hc]
      | none =>
        cases ho : tg.send t with
        | ok d =>
          have e1 : postTelegram true tg c t
              = (some (.postResp d), cacheSet c (telegramKey t) (.postResp d), 1) := by
            simp [postTelegram, hc, ho]
          rw [e1] at h ⊢
          simp only [Option.some.injEq] at h
          subst h
          simp [postTelegram, cacheGet_set_self]
        | err e =>
          have e1 : postTelegram true tg c t = (none, c, 1) := by simp [postTelegram, hc, ho]
          rw [e1] at h
          simp at h

/-- C2 (witness): posting `"x"` twice on the X channel: the second call
returns the first call's stored response record with zero remote
posts. -/
theorem c2_witness :
    postTweet twOk (postTweet twOk [] "x").2.1 "x"
      = (.ok (some (.postResp "tid")), (postTweet twOk [] "x").2.1, 0) :=
  (c2_publish_dedup twOk twOk true tgOk tgOk [] "x"
    (.postResp "tid") (.postResp "m")).1 (by decide)

/-- C10: a failed publish attempt writes nothing to the cache (no
failure marker is ever cached), for both failure kinds of the X channel
and for the Telegram channel; consequently a later publish call with
the identical text reaches the remote post again (one remote attempt,
not a cached short-circuit). -/
theorem c10_no_failure_caching (tw : TweetRemote) (tg : TgRemote) (c : Cache)
    (t e : String) :
    ((tw.create t = .tweepyErr e ∨ tw.create t = .otherErr e) →
      cacheGet c (tweetKey t) = none →
      (postTweet tw c t).2.1 = c ∧
      ∀ tw2 : TweetRemote, (postTweet tw2 c t).2.2 = 1) ∧
    (tg.send t = .err e →
      cacheGet c (telegramKey t) = none →
      postTelegram true tg c t = (none, c, 1) ∧
      ∀ tg2 : TgRemote, (postTelegram true tg2 c t).2.2 = 1) := by
  constructor
  · intro ho hc
    constructor
    · rcases ho with ho | ho <;> simp [postTweet, hc, ho]
    · intro tw2
      cases ho2 : tw2.create t <;> simp [postTweet, hc, ho2]
  · intro ho hc
    constructor
    · simp [postTelegram, hc, ho]
    · intro tg2
      cases ho2 : tg2.send t <;> simp [postTelegram, hc, ho2]

/-- C10 (witness): concrete failing posts on the empty cache leave it
empty, and retries reach the remote service. -/
theorem c10_witness :
    (postTweet twFailTweepy [] "x").2.1 = ([] : Cache) ∧
    (postTweet twOk ([] : Cache) "x").2.2 = 1 ∧
    postTelegram true tgFail [] "x" = (none, ([] : Cache), 1) ∧
    (postTelegram true tgOk ([] : Cache) "x").2.2 = 1 :=
  have h1 := (c10_no_failure_caching twFailTweepy tgFail [] "x" "403 Forbidden").1
    (Or.inl rfl) rfl
  have h2 := (c10_no_failure_caching twFailTweepy tgFail [] "x" "HTTPError").2 rfl rfl
  ⟨h1.1, h1.2 twOk, h2.1, h2.2 tgOk⟩

/-- C5 (amended): when generation fails on a cache miss — the remote
stream raises, or the concatenated response fails to parse — the
underlying exception is logged and re-raised unchanged (the code
defines no `GenerationError` wrapper and attaches no response text);
the error propagates out of the whole `process_and_broadcast`
invocation; the cache is left unchanged, so a subsequent call with the
same prompt issues the remote request again. -/
theorem c5_amended (r : GrokRemote) (tw : TweetRemote) (cfg : Bool) (tg : TgRemote)
    (c : Cache) (p e : String)
    (hmiss : cacheGet c (grokKey "grok-4" p) = none)
    (herr : (r.stream "grok-4" p).exc = some e ∨
      ((r.stream "grok-4" p).exc = none ∧
        r.parse (String.join (r.stream "grok-4" p).chunks) = .error e)) :
    queryGrok r c "grok-4" p = (.error e, c, 1) ∧
    processAndBroadcast r tw cfg tg c p = (.error e, c) ∧
    ∀ r2 : GrokRemote, (queryGrok r2 c "grok-4" p).2.2 = 1 := by
  have hq : queryGrok r c "grok-4" p = (.error e, c, 1) := by
    rcases herr with h1 | ⟨h1, h2⟩
    · simp [queryGrok, hmiss, h1]
    · simp [queryGrok, hmiss, h1, h2]
  refine ⟨hq, ?_, ?_⟩
  · simp [processAndBroadcast, hq]
  · intro r2
    cases h1 : (r2.stream "grok-4" p).exc with
    | some e2 => simp [queryGrok, hmiss, h1]
    | none =>
      cases h2 : r2.parse (String.join (r2.stream "grok-4" p).chunks) with
      | error e2 => simp [queryGrok, hmiss, h1, h2]
      | ok ps => simp [queryGrok, hmiss, h1, h2]

/-- C5 (witness): a concrete failing stream: the connection error
propagates through `process_and_broadcast`, the cache stays empty, and
any retry reaches the remote service again. -/
theorem c5_witness :
    queryGrok grokStreamFails [] "grok-4" "p" = (.error "ConnectionResetError", [], 1) ∧
    processAndBroadcast grokStreamFails twOk false tgOk [] "p"
      = (.error "ConnectionResetError", []) ∧
    (queryGrok grokParses [] "grok-4" "p").2.2 = 1 :=
  have h := c5_amended grokStreamFails twOk false tgOk [] "p" "ConnectionResetError"
    rfl (Or.inl rfl)
  ⟨h.1, h.2.1, h.2.2 grokParses⟩

/-- C5 (counterexample): the claim says a failing generation raises a
`GenerationError` carrying the raw response text.  Concretely, with a
stream that yields the raw chunk `"partial-resp"` and then raises a
`ConnectionResetError`, `_query_grok` re-raises the client's exception
unchanged: the propagated error is the bare `ConnectionResetError`, and
the raw response text received is not contained in it (the accumulated
chunks are a local variable discarded by the `raise`). -/
theorem c5_counterexample :
    (queryGrok grokStreamFails [] "grok-4" "p").1 = .error "ConnectionResetError" ∧
    (queryGrok grokStreamFails [] "grok-4" "p").2.1 = [] ∧
    ¬ ("partial-resp".data <:+: "ConnectionResetError".data) := by
  refine ⟨by decide, by decide, ?_⟩
  intro h
  have hsub : '-' ∈ "ConnectionResetError".data := h.subset (by decide)
  exact absurd hsub (by decide)

/-- C6 (amended): publish failures surfaced as the posting library's
exception type (`tweepy.TweepyException`) are logged and reported as
the `None` failure marker, and every Telegram failure is likewise
swallowed into `None`; but an X-channel failure of any other exception
class escapes the `except tweepy.TweepyException` clause and is raised
to the caller.  In every case nothing is cached. -/
theorem c6_amended (tw : TweetRemote) (tg : TgRemote) (c : Cache) (t e : String) :
    (tw.create t = .tweepyErr e → cacheGet c (tweetKey t) = none →
      postTweet tw c t = (.ok none, c, 1)) ∧
    (tw.create t = .otherErr e → cacheGet c (tweetKey t) = none →
      postTweet tw c t = (.error e, c, 1)) ∧
    (tg.send t = .err e → cacheGet c (telegramKey t) = none →
      postTelegram true tg c t = (none, c, 1)) := by
  refine ⟨fun ho hc => ?_, fun ho hc => ?_, fun ho hc => ?_⟩
  · simp [postTweet, hc, ho]
  · simp [postTweet, hc, ho]
  · simp [postTelegram, hc, ho]

/-- C6 (witness): concrete instances of all three failure routes. -/
theorem c6_witness :
    postTweet twFailTweepy [] "x" = (.ok none, [], 1) ∧
    postTweet twFailOther [] "x" = (.error "ConnectionError", [], 1) ∧
    postTelegram true tgFail [] "x" = (none, [], 1) :=
  ⟨(c6_amended twFailTweepy tgFail [] "x" "403 Forbidden").1 rfl rfl,
   (c6_amended twFailOther tgFail [] "x" "ConnectionError").2.1 rfl rfl,
   (c6_amended twFailTweepy tgFail [] "x" "HTTPError").2.2 rfl rfl⟩

/-- C6 (counterexample): the claim says a publish failure is never
raised to the caller, for any kind of remote failure.  A
transport-level exception from `create_tweet` (not a
`tweepy.TweepyException`) is not caught: `_post_tweet` raises it
instead of returning the failure marker. -/
theorem c6_counterexample :
    (postTweet twFailOther [] "hi").1 = .error "ConnectionError" ∧
    (postTweet twFailOther [] "hi").1 ≠ .ok none := by
  have h0 : (postTweet twFailOther [] "hi").1 = .error "ConnectionError" := by decide
  refine ⟨h0, fun h => ?_⟩
  rw [h0] at h
  exact Except.noConfusion h

/-- `_post_tweet` never raises when the client never raises an
exception outside `tweepy.TweepyException`. -/
theorem postTweet_no_raise (tw : TweetRemote) (c : Cache) (t : String)
    (h : ∀ e, tw.create t ≠ .otherErr e) :
    ∃ o c1 n, postTweet tw c t = (.ok o, c1, n) := by
  cases hc : cacheGet c (tweetKey t) with
  | some v => exact ⟨some v, c, 0, by simp [postTweet, hc]⟩
  | none =>
    cases ho : tw.create t with
    | ok d =>
      exact ⟨some (.postResp d), cacheSet c (tweetKey t) (.postResp d), 1,
        by simp [postTweet, hc, ho]⟩
    | tweepyErr e => exact ⟨none, c, 1, by simp [postTweet, hc, ho]⟩
    | otherErr e => exact absurd ho (h e)

/-- The publish loop of `process_and_broadcast` runs to completion when
the X client raises only `TweepyException`s, producing one result entry
per paragraph, keyed by that paragraph's key, in the paragraphs'
iteration order. -/
theorem broadcastLoop_keys (tw : TweetRemote) (cfg : Bool) (tg : TgRemote)
    (hno : ∀ t e, tw.create t ≠ .otherErr e) :
    ∀ (ps : List (PKey × String)) (c : Cache),
    ∃ res c2, broadcastLoop tw cfg tg c ps = (.ok res, c2) ∧
      res.map Prod.fst = ps.map Prod.fst := by
  intro ps
  induction ps with
  | nil => exact fun c => ⟨[], c, rfl, rfl⟩
  | cons kp rest ih =>
    intro c
    obtain ⟨k, para⟩ := kp
    obtain ⟨o, c1, n, he⟩ := postTweet_no_raise tw c (cleanText para) (hno _)
    obtain ⟨res, c2, hl, hm⟩ := ih (postTelegram cfg tg c1 (cleanText para)).2.1
    refine ⟨(k, ⟨o, (postTelegram cfg tg c1 (cleanText para)).1⟩) :: res, c2, ?_, ?_⟩
    · simp [broadcastLoop, he, hl]
    · simp [hm]

/-- C8: whenever generation succeeds with a ParagraphSet — a dict whose
keys are the consecutive integers 1..n in order, as the data model
requires — `process_and_broadcast` cleans and publishes the paragraphs
in that ascending index order (the loop follows dict insertion order)
and returns a result mapping with exactly one entry per paragraph,
keyed by the paragraph's index, each entry holding both channels'
results.  (The X client is assumed to raise only `TweepyException`s,
which the loop absorbs; cf. C6 for the other failure kind.) -/
theorem c8_order_and_keys (r : GrokRemote) (tw : TweetRemote) (cfg : Bool)
    (tg : TgRemote) (c c1 : Cache) (pr : String) (ps : List (PKey × String)) (n : Nat)
    (hgen : queryGrok r c "grok-4" pr = (.ok (.paragraphs ps), c1, n))
    (hno : ∀ t e, tw.create t ≠ .otherErr e)
    (hkeys : ps.map Prod.fst = (List.range' 1 ps.length).map PKey.pint) :
    ∃ res c2, processAndBroadcast r tw cfg tg c pr = (.ok res, c2) ∧
      res.map Prod.fst = (List.range' 1 ps.length).map PKey.pint := by
  obtain ⟨res, c2, hl, hm⟩ := broadcastLoop_keys tw cfg tg hno ps c1
  refine ⟨res, c2, ?_, ?_⟩
  · simp [processAndBroadcast, hgen, hl]
  · rw [hm, hkeys]

/-- C8 (witness): a concrete two-paragraph broadcast returns entries
keyed 1 then 2. -/
theorem c8_witness :
    ∃ res c2, processAndBroadcast grokParses twOk false tgOk
        [(grokKey "grok-4" "pr", .paragraphs [(.pint 1, "one"), (.pint 2, "two")])] "pr"
      = (.ok res, c2) ∧
      res.map Prod.fst = (List.range' 1 2).map PKey.pint :=
  c8_order_and_keys grokParses twOk false tgOk
    [(grokKey "grok-4" "pr", .paragraphs [(.pint 1, "one"), (.pint 2, "two")])]
    [(grokKey "grok-4" "pr", .paragraphs [(.pint 1, "one"), (.pint 2, "two")])] "pr"
    [(.pint 1, "one"), (.pint 2, "two")] 0
    (by decide) (fun t e h => by simp [twOk] at h) (by decide)

/-- C7: a `TweepyException` during one paragraph's primary post does
not abort the loop: with paragraphs 1, 2, 3 where the X post fails for
paragraph 2 and succeeds for 1 and 3 (all on fresh cache keys, distinct
cleaned texts, Telegram unconfigured), the result maps 1 to its success
record, 2 to the explicit failure marker in its primary field, and 3 —
processed after the failure — to its success record; precisely the two
successes are written to the cache. -/
theorem c7_failure_isolation (r : GrokRemote) (tw : TweetRemote) (tg : TgRemote)
    (c : Cache) (pr p1 p2 p3 d1 d3 e : String)
    (hps : cacheGet c (grokKey "grok-4" pr)
      = some (.paragraphs [(.pint 1, p1), (.pint 2, p2), (.pint 3, p3)]))
    (h1 : tw.create (cleanText p1) = .ok d1)
    (h2 : tw.create (cleanText p2) = .tweepyErr e)
    (h3 : tw.create (cleanText p3) = .ok d3)
    (hm1 : cacheGet c (tweetKey (cleanText p1)) = none)
    (hm2 : cacheGet c (tweetKey (cleanText p2)) = none)
    (hm3 : cacheGet c (tweetKey (cleanText p3)) = none)
    (hne12 : cleanText p1 ≠ cleanText p2)
    (hne13 : cleanText p1 ≠ cleanText p3) :
    processAndBroadcast r tw false tg c pr
      = (.ok [(.pint 1, ⟨some (.postResp d1), none⟩),
              (.pint 2, ⟨none, none⟩),
              (.pint 3, ⟨some (.postResp d3), none⟩)],
         cacheSet (cacheSet c (tweetKey (cleanText p1)) (.postResp d1))
           (tweetKey (cleanText p3)) (.postResp d3)) := by
  have hq : queryGrok r c "grok-4" pr
      = (.ok (.paragraphs [(.pint 1, p1), (.pint 2, p2), (.pint 3, p3)]), c, 0) := by
    simp [queryGrok, hps]
  have hpt1 : postTweet tw c (cleanText p1)
      = (.ok (some (.postResp d1)), cacheSet c (tweetKey (cleanText p1)) (.postResp d1), 1) := by
    simp [postTweet, hm1, h1]
  have hk12 : tweetKey (cleanText p2) ≠ tweetKey (cleanText p1) :=
    tweetKey_ne _ _ (fun hc => hne12 hc.symm)
  have hk13 : tweetKey (cleanText p3) ≠ tweetKey (cleanText p1) :=
    tweetKey_ne _ _ (fun hc => hne13 hc.symm)
  have hm2' : cacheGet (cacheSet c (tweetKey (cleanText p1)) (.postResp d1))
      (tweetKey (cleanText p2)) = none := by
    rw [cacheGet_set_ne _ _ _ _ hk12]
    exact hm2
  have hm3' : cacheGet (cacheSet c (tweetKey (cleanText p1)) (.postResp d1))
      (tweetKey (cleanText p3)) = none := by
    rw [cacheGet_set_ne _ _ _ _ hk13]
    exact hm3
  have hpt2 : postTweet tw (cacheSet c (tweetKey (cleanText p1)) (.postResp d1))
      (cleanText p2)
      = (.ok none, cacheSet c (tweetKey (cleanText p1)) (.postResp d1), 1) := by
    simp [postTweet, hm2', h2]
  have hpt3 : postTweet tw (cacheSet c (tweetKey (cleanText p1)) (.postResp d1))
      (cleanText p3)
      = (.ok (some (.postResp d3)),
         cacheSet (cacheSet c (tweetKey (cleanText p1)) (.postResp d1))
           (tweetKey (cleanText p3)) (.postResp d3), 1) := by
    simp [postTweet, hm3', h3]
  simp [processAndBroadcast, hq, broadcastLoop, hpt1, hpt2, hpt3, postTelegram]

/-- C7 (witness): the three-paragraph scenario with concrete texts and
a client that rejects the second paragraph. -/
theorem c7_witness :
    processAndBroadcast grokParses twMixed false tgOk
        [(grokKey "grok-4" "pr",
          .paragraphs [(.pint 1, "one"), (.pint 2, "two"), (.pint 3, "three")])] "pr"
      = (.ok [(.pint 1, ⟨some (.postResp "id1"), none⟩),
              (.pint 2, ⟨none, none⟩),
              (.pint 3, ⟨some (.postResp "id3"), none⟩)],
         cacheSet (cacheSet
             [(grokKey "grok-4" "pr",
               .paragraphs [(.pint 1, "one"), (.pint 2, "two"), (.pint 3, "three")])]
             (tweetKey (cleanText "one")) (.postResp "id1"))
           (tweetKey (cleanText "three")) (.postResp "id3")) :=
  c7_failure_isolation grokParses twMixed tgOk
    [(grokKey "grok-4" "pr",
      .paragraphs [(.pint 1, "one"), (.pint 2, "two"), (.pint 3, "three")])]
    "pr" "one" "two" "three" "id1" "id3" "duplicate content"
    (by decide) (by decide) (by decide) (by decide)
    (by decide) (by decide) (by decide) (by decide) (by decide)

/-- C9 (amended): when a dispatched broadcast raises a
`GenerationError`, `schedule.run_pending` propagates it and `main`'s
loop — whose only handler is `except KeyboardInterrupt` — terminates
with that error instead of continuing: after any number of clean ticks,
the first tick whose job raises a non-`KeyboardInterrupt` exception
crashes the loop, and no later tick is ever polled. -/
theorem c9_amended (pre post : List TickOut) (e : String)
    (hpre : ∀ o ∈ pre, o = TickOut.done)
    (he : e ≠ "KeyboardInterrupt") :
    runLoop (pre ++ TickOut.raises e :: post) = (.crashed e, pre.length + 1) := by
  induction pre with
  | nil => simp [runLoop, he]
  | cons o rest ih =>
    have ho : o = TickOut.done := hpre o (by simp)
    subst ho
    have hr := ih (fun o h => hpre o (by simp [h]))
    simp [runLoop, hr]

/-- C9 (witness): one clean tick, then a `GenerationError`: the loop
crashes at tick 2, never reaching the third (pending) tick. -/
theorem c9_witness :
    runLoop [TickOut.done, TickOut.raises "GenerationError", TickOut.done]
      = (.crashed "GenerationError", 2) :=
  c9_amended [TickOut.done] [TickOut.done] "GenerationError"
    (by simp) (by decide)

/-- C9 (counterexample): the claim says the scheduler loop does not
crash on a `GenerationError` and continues polling for the next due
entry.  Concretely, a trace whose first tick raises `GenerationError`
and which has one more pending tick ends in the crashed state having
executed only one tick: the next due entry is never polled. -/
theorem c9_counterexample :
    runLoop [TickOut.raises "GenerationError", TickOut.done]
      = (.crashed "GenerationError", 1) ∧
    (runLoop [TickOut.raises "GenerationError", TickOut.done]).2 < 2 := by
  constructor <;> decide
